import Mathlib

/-!
Verification of the JuMake-fast project-scaffolding CLI (Rust) against its
natural-language specification.  The Rust sources are shallowly embedded:
pure string/list manipulation becomes Lean functions over `String`/`List`,
filesystem and subprocess effects become explicit environment records plus
step traces, and fallible code returns `Except`.  Note that `commands.rs`
and `utils.rs` in the repository are entirely commented out (dead code), so
`main.rs`, `build.rs` and `create_files.rs` are the authoritative sources.
-/

namespace JuMake

/-! ## String helpers

These model the exact Rust `str` operations used by the sources
(`trim_start`, `starts_with`, `contains`, `split`, leading-whitespace
counting, and space padding), implemented over `List Char` so the kernel
can evaluate them. -/

/-- Model of Rust `str::trim_start`: drop leading whitespace characters. -/
def trimStartStr (s : String) : String :=
  String.mk (s.toList.dropWhile Char.isWhitespace)

/-- Model of Rust `str::starts_with`. -/
def startsWithStr (s p : String) : Bool :=
  p.toList.isPrefixOf s.toList

/-- Model of `line.chars().take_while(|c| c.is_whitespace()).count()` from
`update_cmakelists`. -/
def leadingWsCount (s : String) : Nat :=
  (s.toList.takeWhile Char.isWhitespace).length

/-- Model of `format!("{:indent$}{}", "", name, indent = n)`: `n` spaces
followed by `name`. -/
def mkIndentLine (n : Nat) (name : String) : String :=
  String.mk (List.replicate n ' ') ++ name

/-- Substring containment over character lists (hay contains needle),
modelling Rust `str::contains` with a string pattern. -/
def containsSub (hay needle : List Char) : Bool :=
  needle.isPrefixOf hay ||
    match hay with
    | [] => false
    | _ :: t => containsSub t needle

/-- Model of Rust `path.contains(build_type)`. -/
def strContains (hay needle : String) : Bool :=
  containsSub hay.toList needle.toList

/-- Characters of `s` strictly before the first occurrence of `needle`
(all of `s` if `needle` never occurs).  Models Rust
`s.split(needle).next().unwrap()`: `str::split` always yields at least one
item, namely the text before the first match. -/
def beforeFirst (hay needle : List Char) : List Char :=
  if needle.isPrefixOf hay then []
  else
    match hay with
    | [] => []
    | c :: t => c :: beforeFirst t needle

/-! ## Data model

`src/context.rs` is not present in the repository sources (only its uses
are).  The struct below is reconstructed from its construction sites in
`main.rs` and its field uses in `build.rs`/`create_files.rs`; paths are
modelled as lists of path segments. -/

/-- Modelled from the spec: the `ProjectContext` record of §3 (the file
`src/context.rs` is missing from the sources; fields match every
construction site in `main.rs`). -/
structure Context where
  project_name : String
  project_path : List String
  template_name : Option String
  build_type : String
deriving DecidableEq, Repr

/-! ## Descriptor mutation (`create_files.rs`, `update_cmakelists`) -/

/-- Does the line's trimmed content begin the `target_sources` block?
Models `line.trim_start().starts_with("target_sources(${PROJECT_NAME}")`. -/
def isTargetSourcesLine (line : String) : Bool :=
  startsWithStr (trimStartStr line) "target_sources($\x7bPROJECT_NAME\x7d"

/-- Does the line's trimmed content begin with `PRIVATE`?
Models `line.trim_start().starts_with("PRIVATE")`. -/
def isPrivateLine (line : String) : Bool :=
  startsWithStr (trimStartStr line) "PRIVATE"

/-- Loop body of `update_cmakelists`: walks the lines carrying the
`found_target_sources` and `added` flags, inserting the new cpp line after
the first `PRIVATE` line seen once a `target_sources` line has been seen.
Returns the rewritten lines together with the final `added` flag. -/
def updateLoop (cpp : String) : List String → Bool → Bool → List String × Bool
  | [], _, added => ([], added)
  | line :: rest, found, added =>
    let found2 := found || isTargetSourcesLine line
    if found2 && isPrivateLine line && !added then
      let indentation := leadingWsCount line + 4
      let r := updateLoop cpp rest found2 true
      (line :: mkIndentLine indentation cpp :: r.1, r.2)
    else
      let r := updateLoop cpp rest found2 added
      (line :: r.1, r.2)

/-- Error cases of `create_files.rs` (anyhow bail messages). -/
inductive AddError where
  | invalidElementType
  | alreadyExists
  | markerNotFound
deriving DecidableEq, Repr

/-- Model of `update_cmakelists`, operating on the descriptor file's line
list (Rust reads the file into `lines: Vec<String>` and writes back the
joined result). -/
def update_cmakelists (lines : List String) (cpp_file_name : String) :
    Except AddError (List String) :=
  let r := updateLoop cpp_file_name lines false false
  if r.2 then .ok r.1 else .error .markerNotFound

/-! ## Element addition (`create_files.rs`, `add_class`)

The source directory is abstracted as the list of file names present in it
plus the descriptor file's lines; `add_class` is a state transformer that
also returns its result, so that files written before a later failure stay
written (as in the Rust code, which returns `Err` without rolling back). -/

/-- Abstract state of the project's `src` directory. -/
structure SrcState where
  files : List String
  cmake : List String
deriving DecidableEq, Repr

/-- Effective name computation of `add_class`: "class" keeps the name,
"component" appends the fixed suffix, anything else is the
`Invalid element type` bail. -/
def adjusted_name (element_type element_name : String) : Option String :=
  if element_type = "class" then some element_name
  else if element_type = "component" then some (element_name ++ "Component")
  else none

/-- Model of `add_class`: duplicate check (header or cpp file exists)
before any write, then both source files are written, then the descriptor
mutation runs; a descriptor-mutation failure leaves the written files in
place. -/
def add_class (st : SrcState) (element_type element_name : String) :
    SrcState × Except AddError Unit :=
  match adjusted_name element_type element_name with
  | none => (st, .error .invalidElementType)
  | some adjusted =>
    let header_file_name := adjusted ++ ".h"
    let cpp_file_name := adjusted ++ ".cpp"
    if st.files.contains header_file_name || st.files.contains cpp_file_name then
      (st, .error .alreadyExists)
    else
      let st1 : SrcState := { st with files := header_file_name :: cpp_file_name :: st.files }
      match update_cmakelists st1.cmake cpp_file_name with
      | .ok newLines => ({ st1 with cmake := newLines }, .ok ())
      | .error e => (st1, .error e)

/-! ## Build orchestration (`build.rs`)

Filesystem probes and subprocess outcomes are inputs (a `World` record);
the subprocess invocations the code performs become an explicit step
trace. -/

/-- Result of a filesystem read, as far as the code distinguishes it:
Rust `io::Error` is collapsed to "not found" versus any other error. -/
inductive ReadError where
  | notFound
  | otherErr
deriving DecidableEq, Repr

/-- Ambient environment of one command invocation: filesystem probes and
the exit status/output of each external process the code may spawn. -/
structure World where
  cwd : List String
  markerRead : Except ReadError String
  rootCMakeLines : List String
  templCapture : Option String
  cacheExists : Bool
  ninjaOk : Bool
  ccacheOk : Bool
  configureOk : Bool
  compileOk : Bool
  compileCommandsExist : Bool
  isWindows : Bool
  isMacos : Bool
  numCpus : Nat
  searchOk : Bool
  searchPaths : List String
deriving Repr

/-- Externally visible effects performed by the handlers. -/
inductive Step where
  | createDir
  | cmakeConfigure (generator : String) (build_type : String) (ccache : Bool)
  | cmakeCompile (build_type : String) (jobs : Nat)
  | copyCompileCommands
  | writeMarker (build_type : String)
  | execOpen (path : String)
  | execDirect (path : String)
deriving DecidableEq, Repr

/-- Error type of `build.rs` (the `Io`/`Utf8` variants do not arise in
this environment model, whose reads and spawns always yield a status). -/
inductive BuildError where
  | cmakeConfigureFailed
  | cmakeBuildFailed
  | executableNotFound (build_type : String)
  | compileCommandsMissing
deriving DecidableEq, Repr

/-- Width of Rust `usize` on the 64-bit targets the tool runs on. -/
def USIZE : Nat := 2 ^ 64

/-- Two's-complement wrapping subtraction on `usize` (release-profile
semantics of Rust's `-`; the debug profile panics on the same underflow,
so either way the mathematical difference is not produced below `b`). -/
def wrapSub (a b : Nat) : Nat := (a + USIZE - b) % USIZE

/-- Model of `std::cmp::max(num_cpus::get() - 2, 2)` from `build_project`. -/
def num_cpus_jobs (n : Nat) : Nat := max (wrapSub n 2) 2

/-- Model of `build_project`: ensure the build dir, pick a generator by
probing for ninja, configure only when `CMakeCache.txt` is absent, then
always compile with the computed parallelism, then (off Windows) require
and copy `compile_commands.json`. -/
def build_project (w : World) (ctx : Context) : List Step × Except BuildError Unit :=
  let generator := if w.ninjaOk then "Ninja" else "Unix Makefiles"
  let confSteps : List Step :=
    if w.cacheExists then [] else [Step.cmakeConfigure generator ctx.build_type w.ccacheOk]
  if !w.cacheExists && !w.configureOk then
    (Step.createDir :: confSteps, .error .cmakeConfigureFailed)
  else
    let steps := Step.createDir :: confSteps ++
      [Step.cmakeCompile ctx.build_type (num_cpus_jobs w.numCpus)]
    if !w.compileOk then (steps, .error .cmakeBuildFailed)
    else if !w.isWindows then
      if w.compileCommandsExist then (steps ++ [Step.copyCompileCommands], .ok ())
      else (steps, .error .compileCommandsMissing)
    else (steps, .ok ())

/-- Model of the final normalization in `find_executable` on macOS:
`path.split(".app").next().map(|s| format!("{}.app", s))`.  Since Rust
`split` always yields a first item (the text before the first match, or
the whole string when there is no match), this is "text before the first
`.app`" with `".app"` appended. -/
def macAppNormalize (p : String) : String :=
  String.mk (beforeFirst p.toList ".app".toList) ++ ".app"

/-- Model of `find_executable`: the platform search command's success flag
and output lines are environment inputs; the first candidate containing
the build type as a substring is selected, then macOS normalization is
applied. -/
def find_executable (w : World) (ctx : Context) : Except BuildError String :=
  if !w.searchOk then .error (.executableNotFound ctx.build_type)
  else
    match w.searchPaths.find? (fun p => strContains p ctx.build_type) with
    | none => .error (.executableNotFound ctx.build_type)
    | some p => .ok (if w.isMacos then macAppNormalize p else p)

/-- Model of `run_project`: always build first, then locate the artifact,
then launch it (through `open` on macOS for non-ConsoleApp templates,
directly otherwise). -/
def run_project (w : World) (ctx : Context) : List Step × Except BuildError Unit :=
  match build_project w ctx with
  | (t, .error e) => (t, .error e)
  | (t, .ok _) =>
    match find_executable w ctx with
    | .error e => (t, .error e)
    | .ok p =>
      if w.isMacos && ctx.template_name ≠ some "ConsoleApp" then
        (t ++ [Step.execOpen p], .ok ())
      else
        (t ++ [Step.execDirect p], .ok ())

/-! ## Command handlers and helpers (`main.rs`) -/

/-- Model of `validate_build_type` (Ok/Err collapsed to Bool; the callers
turn `false` into the invalid-build-type error). -/
def validate_build_type (build_type : String) : Bool :=
  build_type = "Debug" || build_type = "Release" ||
    build_type = "RelWithDebInfo" || build_type = "MinSizeRel"

/-- Model of `read_last_build_type`: `fs::read_to_string(...).ok()`
discards the error, whatever it is. -/
def read_last_build_type (r : Except ReadError String) : Option String :=
  r.toOption

/-- Path of the `.jumake` marker file under a project root. -/
def jumakeMarker (project_path : List String) : List String :=
  project_path ++ [".jumake"]

/-- Model of `save_build_type`: `fs::write` replaces the marker file's
content with exactly the build-type string (no newline added).  The
filesystem is a map from path to read outcome. -/
def save_build_type (fs : List String → Except ReadError String) (ctx : Context) :
    List String → Except ReadError String :=
  fun p => if p = jumakeMarker ctx.project_path then .ok ctx.build_type else fs p

/-- Resolution of the effective build type in `handle_run`: the `LastUsed`
sentinel falls back to the marker file's content, defaulting to
`Release` when `read_last_build_type` yields nothing. -/
def effective_build_type (build_type : String) (markerRead : Except ReadError String) :
    String :=
  if build_type = "LastUsed" then (read_last_build_type markerRead).getD "Release"
  else build_type

/-- Model of `str::strip_prefix`. -/
def stripPre (p s : String) : Option String :=
  if startsWithStr s p then some (String.mk (s.toList.drop p.toList.length)) else none

/-- First whitespace-separated token of a character list, modelling
`split_whitespace().next()`. -/
def firstToken (l : List Char) : Option (List Char) :=
  let t := (l.dropWhile Char.isWhitespace).takeWhile (fun c => !c.isWhitespace)
  if t.isEmpty then none else some t

/-- Index of the first `')'`, modelling `str::find(')')`. -/
def findRParenIdx : List Char → Option Nat
  | [] => none
  | c :: t =>
    if c = ')' then some 0
    else (findRParenIdx t).map (· + 1)

/-- Model of `extract_project_name`, over the root CMakeLists.txt line
list: the first line whose trimmed content starts `project(` and whose
text up to the first `)` holds a whitespace-separated token yields that
token; otherwise the "not found" error (here `none`). -/
def extract_project_name : List String → Option String
  | [] => none
  | line :: rest =>
    match stripPre "project(" (trimStartStr line) with
    | none => extract_project_name rest
    | some stripped =>
      match findRParenIdx stripped.toList with
      | none => extract_project_name rest
      | some endIdx =>
        match firstToken (stripped.toList.take endIdx) with
        | some name => some (String.mk name)
        | none => extract_project_name rest

/-- Model of `determine_template_name`: the regex capture of the
`JUMAKE_TEMPLATE` annotation in `src/CMakeLists.txt` is abstracted as the
environment's `templCapture` field; the function always produces
`some`, defaulting to `GuiApplication`. -/
def determine_template_name (annot : Option String) : Option String :=
  some (annot.getD "GuiApplication")

/-- Outcome of code that may panic (Rust `unwrap` on `None`). -/
inductive PanicOr (α : Type) where
  | panicked
  | ok (a : α)
deriving DecidableEq, Repr

/-- Model of `Path::file_name` on a path given as its list of segments:
the last segment, absent for the filesystem root (empty list). -/
def file_name (p : List String) : Option String := p.getLast?

/-- Model of `current_context` (used by `handle_add`): derives the
project name by `file_name(cwd).unwrap()`, so a cwd with no final
segment panics. -/
def current_context (cwd : List String) : PanicOr Context :=
  match file_name cwd with
  | none => .panicked
  | some n => .ok ⟨n, cwd, none, "Release"⟩

/-- Model of `current_context_with_build` (used by `handle_build`): same
unwrap on `file_name(cwd)`, with the requested build type and the template
name read from the descriptor annotation. -/
def current_context_with_build (cwd : List String) (annot : Option String)
    (build_type : String) : PanicOr Context :=
  match file_name cwd with
  | none => .panicked
  | some n => .ok ⟨n, cwd, determine_template_name annot, build_type⟩

/-- Top-level error surface of the handlers in `main.rs`. -/
inductive TopError where
  | invalidBuildType
  | projectNameNotFound
  | buildErr (e : BuildError)
deriving DecidableEq, Repr

/-- Model of `handle_build`: validate, build the context from the cwd,
run `build_project`, and persist the build type on success. -/
def handle_build (w : World) (build_type : String) :
    PanicOr (List Step × Except TopError Unit) :=
  if !validate_build_type build_type then .ok ([], .error .invalidBuildType)
  else
    match current_context_with_build w.cwd w.templCapture build_type with
    | .panicked => .panicked
    | .ok ctx =>
      match build_project w ctx with
      | (t, .error e) => .ok (t, .error (.buildErr e))
      | (t, .ok _) => .ok (t ++ [Step.writeMarker ctx.build_type], .ok ())

/-- Model of `handle_run`: resolve the effective build type (LastUsed
sentinel via the marker file), validate it, read the project name from the
root CMakeLists.txt, then `run_project`.  No marker write occurs on this
path. -/
def handle_run (w : World) (build_type : String) :
    List Step × Except TopError Unit :=
  if !validate_build_type (effective_build_type build_type w.markerRead) then
    ([], .error .invalidBuildType)
  else
    match extract_project_name w.rootCMakeLines with
    | none => ([], .error .projectNameNotFound)
    | some name =>
      match run_project w ⟨name, w.cwd, determine_template_name w.templCapture,
          effective_build_type build_type w.markerRead⟩ with
      | (t, .error e) => (t, .error (.buildErr e))
      | (t, .ok _) => (t, .ok ())

/-! ## Decidability helper and concrete environments used as test inputs -/

/-- Decidable equality for `Except`, used to evaluate the models on
concrete inputs. -/
instance {ε α : Type} [DecidableEq ε] [DecidableEq α] :
    DecidableEq (Except ε α) := fun x y =>
  match x, y with
  | .error a, .error b =>
    if h : a = b then .isTrue (by rw [h])
    else .isFalse (fun hh => h (Except.error.inj hh))
  | .ok a, .ok b =>
    if h : a = b then .isTrue (by rw [h])
    else .isFalse (fun hh => h (Except.ok.inj hh))
  | .error _, .ok _ => .isFalse (fun hh => Except.noConfusion hh)
  | .ok _, .error _ => .isFalse (fun hh => Except.noConfusion hh)

/-- Concrete context: ConsoleApp project `Foo` built as Release. -/
def ctxRelease : Context :=
  ⟨"Foo", ["home", "proj"], some "ConsoleApp", "Release"⟩

/-- Concrete healthy Linux environment: cache marker present, all
external tools succeed, 8 CPUs, one Release candidate executable. -/
def envRun : World where
  cwd := ["home", "proj"]
  markerRead := .error .notFound
  rootCMakeLines := ["cmake_minimum_required(VERSION 3.24)", "project(proj VERSION 0.0.1)"]
  templCapture := none
  cacheExists := true
  ninjaOk := false
  ccacheOk := false
  configureOk := true
  compileOk := true
  compileCommandsExist := true
  isWindows := false
  isMacos := false
  numCpus := 8
  searchOk := true
  searchPaths := ["/b/Release/proj"]

/-- Same environment on a machine reporting a single available CPU. -/
def envOneCpu : World := { envRun with numCpus := 1 }

/-- Same environment on macOS with a bundle-less candidate executable. -/
def envMacNoApp : World :=
  { envRun with isMacos := true, searchPaths := ["/b/Release/Foo"] }

/-- Same environment, with the marker-file read failing with an error
other than "not found". -/
def envReadErr : World := { envRun with markerRead := .error .otherErr }

/-- Same environment with the two candidate paths of the spec's locator
example. -/
def envTwoCandidates : World :=
  { envRun with searchPaths := ["/b/Debug/Foo", "/b/Release/Foo"] }

/-- Same environment where no candidate contains the build type. -/
def envNoCandidate : World := { envRun with searchPaths := ["/b/Debug/Foo"] }

/-- Concrete source-directory state whose descriptor lacks the
target_sources/PRIVATE markers, so descriptor mutation fails. -/
def stNoMarker : SrcState := ⟨[], ["add_executable(Foo Main.cpp)"]⟩

/-! ## Theorems -/

/-- C10: persisting the build type round-trips: after `save_build_type`,
`read_last_build_type` on the same project path returns exactly the saved
string (no transformation), so a subsequent run with the `LastUsed`
sentinel resolves to the build type of the last successful build. -/
theorem save_read_roundtrip (fs : List String → Except ReadError String) (ctx : Context) :
    read_last_build_type (save_build_type fs ctx (jumakeMarker ctx.project_path)) =
      some ctx.build_type ∧
    effective_build_type "LastUsed"
        (save_build_type fs ctx (jumakeMarker ctx.project_path)) = ctx.build_type := by
  constructor
  · simp [read_last_build_type, save_build_type, Except.toOption]
  · simp [effective_build_type, read_last_build_type, save_build_type, Except.toOption]

/-- C3 counterexample: a marker-read failure that is not "not found" is
NOT propagated: the resolution silently yields the default `Release` and
the whole run succeeds. -/
theorem lastused_swallows_error_counterexample :
    effective_build_type "LastUsed" (Except.error ReadError.otherErr) = "Release" ∧
    (handle_run envReadErr "LastUsed").2 = Except.ok () := ⟨rfl, rfl⟩

/-- C3 amended: under the `LastUsed` sentinel a successful marker read
yields its content verbatim, while every read failure — "not found" and
any other filesystem error alike — silently yields the fixed default
`Release` (the code discards the error with `.ok()`); a non-sentinel
build type is used verbatim. -/
theorem lastused_resolution (r : Except ReadError String) :
    effective_build_type "LastUsed" r =
      (match r with | .ok s => s | .error _ => "Release") ∧
    ∀ bt : String, bt ≠ "LastUsed" → effective_build_type bt r = bt := by
  constructor
  · cases r <;> simp [effective_build_type, read_last_build_type, Except.toOption]
  · intro bt h
    simp [effective_build_type, h]

/-- C3 amended, witness at concrete inputs. -/
theorem lastused_resolution_witness :
    effective_build_type "LastUsed" (Except.error ReadError.otherErr) = "Release" ∧
    effective_build_type "Debug" (Except.error ReadError.otherErr) = "Debug" := by
  refine ⟨(lastused_resolution (Except.error ReadError.otherErr)).1, ?_⟩
  exact (lastused_resolution (Except.error ReadError.otherErr)).2 "Debug" (by decide)

/-- C7: evaluation of the macOS normalization at the failing input: a
selected candidate path containing no `.app` is not returned unchanged —
the code appends `.app` to it (the split's first item is the whole string,
to which `.app` is then concatenated), contradicting the inline comment's
"truncate path after .app". -/
theorem mac_normalize_appends_suffix :
    find_executable envMacNoApp ctxRelease = Except.ok "/b/Release/Foo.app" ∧
    macAppNormalize "/b/Release/Foo" = "/b/Release/Foo.app" ∧
    ("/b/Release/Foo.app" : String) ≠ "/b/Release/Foo" := by
  exact ⟨rfl, rfl, by decide⟩

/-- C9 counterexample: at the filesystem root (no nameable final path
segment) both context resolvers panic (Rust `unwrap` on `None`) instead
of returning a `ProjectNameUndeterminable` error — no such error exists
in the code. -/
theorem context_panics_at_root :
    current_context [] = PanicOr.panicked ∧
    current_context_with_build [] none "Release" = PanicOr.panicked := ⟨rfl, rfl⟩

/-- C9 amended: the resolvers derive the project name from the final path
segment when one exists; when the working directory has no nameable final
segment they panic (unwrap on `None`) rather than returning an error. -/
theorem context_name_amended (cwd : List String) :
    (∀ n, file_name cwd = some n →
        current_context cwd = PanicOr.ok ⟨n, cwd, none, "Release"⟩ ∧
        ∀ a bt, current_context_with_build cwd a bt =
          PanicOr.ok ⟨n, cwd, determine_template_name a, bt⟩) ∧
    (file_name cwd = none →
        current_context cwd = PanicOr.panicked ∧
        ∀ a bt, current_context_with_build cwd a bt = PanicOr.panicked) := by
  constructor
  · intro n h
    simp [current_context, current_context_with_build, h]
  · intro h
    simp [current_context, current_context_with_build, h]

/-- C9 amended, witness at concrete inputs. -/
theorem context_name_amended_witness :
    current_context ["home", "proj"] =
      PanicOr.ok ⟨"proj", ["home", "proj"], none, "Release"⟩ ∧
    current_context_with_build [] none "Debug" = PanicOr.panicked := by
  refine ⟨((context_name_amended ["home", "proj"]).1 "proj" rfl).1, ?_⟩
  exact ((context_name_amended []).2 rfl).2 none "Debug"

/-- Helper: `find?` selects the head of the first split position whose
element satisfies the predicate. -/
theorem find_first_of_split {α : Type} {p : α → Bool} (pre : List α) (x : α) (post : List α)
    (hpre : ∀ q ∈ pre, p q = false) (hx : p x = true) :
    (pre ++ x :: post).find? p = some x := by
  induction pre with
  | nil => simpa using List.find?_cons_of_pos post hx
  | cons a l ih =>
    have ha : p a = false := hpre a (by simp)
    rw [List.cons_append, List.find?_cons_of_neg _ (by simp [ha])]
    exact ih (fun q hq => hpre q (by simp [hq]))

/-- C6: the artifact locator returns the first candidate path containing
the requested build type as a substring, and fails with
`ExecutableNotFound` when no candidate contains it (stated off macOS,
where no bundle normalization applies). -/
theorem find_executable_first_match (w : World) (ctx : Context)
    (hs : w.searchOk = true) (hm : w.isMacos = false) :
    (∀ pre p post, w.searchPaths = pre ++ p :: post →
        (∀ q ∈ pre, strContains q ctx.build_type = false) →
        strContains p ctx.build_type = true →
        find_executable w ctx = Except.ok p) ∧
    ((∀ p ∈ w.searchPaths, strContains p ctx.build_type = false) →
        find_executable w ctx =
          Except.error (BuildError.executableNotFound ctx.build_type)) := by
  constructor
  · intro pre p post hsplit hpre hp
    have hfind : (pre ++ p :: post).find? (fun q => strContains q ctx.build_type) = some p :=
      find_first_of_split pre p post hpre hp
    simp [find_executable, hs, hm, hsplit, hfind]
  · intro hnone
    have hfind : w.searchPaths.find? (fun q => strContains q ctx.build_type) = none :=
      List.find?_eq_none.mpr (fun x hx => by simp [hnone x hx])
    simp [find_executable, hs, hfind]

/-- C6 witness: the spec's concrete locator example, and the failure case
with no matching candidate. -/
theorem find_executable_first_match_witness :
    find_executable envTwoCandidates ctxRelease = Except.ok "/b/Release/Foo" ∧
    find_executable envNoCandidate ctxRelease =
      Except.error (BuildError.executableNotFound "Release") := by
  constructor
  · exact (find_executable_first_match envTwoCandidates ctxRelease rfl rfl).1
      ["/b/Debug/Foo"] "/b/Release/Foo" [] rfl (by decide) (by decide)
  · exact (find_executable_first_match envNoCandidate ctxRelease rfl rfl).2 (by decide)

/-- C1: when the cache marker `CMakeCache.txt` exists in the build
directory, `build_project` never performs a configure step — for any
generator, build type and ccache flag — and the compile step runs. -/
theorem cache_skips_configure (w : World) (ctx : Context) (h : w.cacheExists = true) :
    (∀ g bt cc, Step.cmakeConfigure g bt cc ∉ (build_project w ctx).1) ∧
    Step.cmakeCompile ctx.build_type (num_cpus_jobs w.numCpus) ∈ (build_project w ctx).1 := by
  cases hc : w.compileOk <;> cases hw : w.isWindows <;> cases hcc : w.compileCommandsExist <;>
    simp [build_project, h, hc, hw, hcc]

/-- C1 witness: in the concrete cached environment, no configure step is
in the trace and the compile step is. -/
theorem cache_skips_configure_witness :
    envRun.cacheExists = true ∧
    Step.cmakeConfigure "Ninja" "Release" false ∉ (build_project envRun ctxRelease).1 ∧
    Step.cmakeCompile "Release" 6 ∈ (build_project envRun ctxRelease).1 := by
  refine ⟨rfl, (cache_skips_configure envRun ctxRelease rfl).1 "Ninja" "Release" false, ?_⟩
  exact (cache_skips_configure envRun ctxRelease rfl).2

/-- C8 counterexample: on a machine reporting 1 available CPU the usize
subtraction `num_cpus::get() - 2` underflows (two's-complement wrap in
the release profile; the debug profile panics), so the parallelism passed
to the build tool is `2^64 - 1`, not the claimed
`max(available_parallelism - 2, 2) = 2`. -/
theorem parallel_jobs_wrap_at_one_cpu :
    Step.cmakeCompile "Release" (2 ^ 64 - 1) ∈ (build_project envOneCpu ctxRelease).1 ∧
    num_cpus_jobs 1 = 2 ^ 64 - 1 ∧
    (2 ^ 64 - 1 : Nat) ≠ Int.toNat (max ((1 : Int) - 2) 2) := by
  refine ⟨by decide, by decide, by decide⟩

/-- C8 amended: whenever a compile step appears in the build trace and
the machine reports at least 2 CPUs (and the count fits in usize), the
parallelism degree equals `max(available_parallelism - 2, 2)` and is at
least 2; at fewer than 2 CPUs the subtraction underflows instead. -/
theorem parallel_jobs_amended (w : World) (ctx : Context) (bt : String) (j : Nat)
    (hmem : Step.cmakeCompile bt j ∈ (build_project w ctx).1)
    (h2 : 2 ≤ w.numCpus) (hlt : w.numCpus < USIZE) :
    j = max (w.numCpus - 2) 2 ∧ 2 ≤ j := by
  have hval : num_cpus_jobs w.numCpus = max (w.numCpus - 2) 2 := by
    unfold num_cpus_jobs wrapSub
    have h1 : w.numCpus + USIZE - 2 = (w.numCpus - 2) + USIZE := by omega
    rw [h1, Nat.add_mod_right, Nat.mod_eq_of_lt (by omega)]
  have hj : j = num_cpus_jobs w.numCpus := by
    cases hcache : w.cacheExists <;> cases hconf : w.configureOk <;>
      cases hc : w.compileOk <;> cases hw : w.isWindows <;>
      cases hcc : w.compileCommandsExist <;>
      simp [build_project, hcache, hconf, hc, hw, hcc] at hmem <;>
      exact hmem.2
  rw [hj, hval]
  exact ⟨rfl, le_max_right _ _⟩

/-- C8 amended, witness: 8 CPUs yield 6 parallel jobs. -/
theorem parallel_jobs_amended_witness :
    Step.cmakeCompile "Release" 6 ∈ (build_project envRun ctxRelease).1 ∧
    (6 = max (envRun.numCpus - 2) 2 ∧ 2 ≤ 6) := by
  refine ⟨by decide, ?_⟩
  exact parallel_jobs_amended envRun ctxRelease "Release" 6 (by decide) (by decide) (by decide)

/-- Helper: `build_project` never emits a marker write. -/
theorem writeMarker_not_in_build_project (w : World) (ctx : Context) (b : String) :
    Step.writeMarker b ∉ (build_project w ctx).1 := by
  cases hcache : w.cacheExists <;> cases hconf : w.configureOk <;>
    cases hc : w.compileOk <;> cases hw : w.isWindows <;>
    cases hcc : w.compileCommandsExist <;>
    simp [build_project, hcache, hconf, hc, hw, hcc]

/-- Helper: `run_project` never emits a marker write either. -/
theorem writeMarker_not_in_run_project (w : World) (ctx : Context) (b : String) :
    Step.writeMarker b ∉ (run_project w ctx).1 := by
  rcases hbp : build_project w ctx with ⟨t, r⟩
  have hbt : Step.writeMarker b ∉ t := by
    simpa [hbp] using writeMarker_not_in_build_project w ctx b
  cases r with
  | error e => simpa [run_project, hbp] using hbt
  | ok u =>
    cases hfe : find_executable w ctx with
    | error e => simpa [run_project, hbp, hfe] using hbt
    | ok p =>
      by_cases hmac : w.isMacos = true ∧ ¬ctx.template_name = some "ConsoleApp" <;>
        simp [run_project, hbp, hfe, hmac, List.mem_append, hbt]

/-- C2 counterexample: a concrete `run` invocation succeeds end to end
(build, compile-commands copy, execution) yet its effect trace contains no
marker-file write: `handle_run` never calls `save_build_type`. -/
theorem run_does_not_persist_marker :
    handle_run envRun "Release" =
      ([Step.createDir, Step.cmakeCompile "Release" 6, Step.copyCompileCommands,
        Step.execDirect "/b/Release/proj"], Except.ok ()) ∧
    Step.writeMarker "Release" ∉ (handle_run envRun "Release").1 := by
  exact ⟨rfl, by decide⟩

/-- C2 amended: the marker file is written (as the final effect) after
every successful `build` command, but the `run` path never persists the
effective build type — no marker write ever appears in a run trace. -/
theorem build_persists_marker_run_does_not (w : World) (bt : String) (t : List Step)
    (h : handle_build w bt = PanicOr.ok (t, Except.ok ())) :
    t.getLast? = some (Step.writeMarker bt) ∧
    ∀ s b, Step.writeMarker b ∉ (handle_run w s).1 := by
  constructor
  · unfold handle_build at h
    cases hv : validate_build_type bt <;> simp [hv] at h
    cases hf : file_name w.cwd <;>
      simp [current_context_with_build, hf] at h
    rename_i n
    rcases hbp : build_project w ⟨n, w.cwd, determine_template_name w.templCapture, bt⟩
      with ⟨tb, rb⟩
    rw [hbp] at h
    cases rb with
    | error e => simp at h
    | ok u =>
      simp at h
      rw [← h]
      exact List.getLast?_concat _
  · intro s b
    unfold handle_run
    split
    · simp
    · cases he : extract_project_name w.rootCMakeLines with
      | none => simp [he]
      | some name =>
        rcases hrp : run_project w ⟨name, w.cwd, determine_template_name w.templCapture,
            effective_build_type s w.markerRead⟩ with ⟨tr, rr⟩
        have hbt : Step.writeMarker b ∉ tr := by
          simpa [hrp] using writeMarker_not_in_run_project w
            ⟨name, w.cwd, determine_template_name w.templCapture,
              effective_build_type s w.markerRead⟩ b
        cases rr <;> simp [he, hrp, hbt]

/-- C2 amended, witness at the concrete environment. -/
theorem build_persists_marker_witness :
    ([Step.createDir, Step.cmakeCompile "Release" 6, Step.copyCompileCommands,
        Step.writeMarker "Release"] : List Step).getLast? =
      some (Step.writeMarker "Release") ∧
    Step.writeMarker "Debug" ∉ (handle_run envRun "Release").1 := by
  have h := build_persists_marker_run_does_not envRun "Release"
    [Step.createDir, Step.cmakeCompile "Release" 6, Step.copyCompileCommands,
      Step.writeMarker "Release"] rfl
  exact ⟨h.1, h.2 "Release" "Debug"⟩

/-- C5: `add_class` is idempotent-refusing: once a first call has passed
the duplicate check and written the header and implementation files, a
second call with the same kind and name fails with `AlreadyExists` and
changes nothing — regardless of whether the first call's
descriptor-mutation step succeeded (the duplicate check precedes every
write, and the source files are written before the descriptor mutation). -/
theorem add_class_refuses_duplicate (st : SrcState) (ty nm a : String)
    (ha : adjusted_name ty nm = some a)
    (hh : st.files.contains (a ++ ".h") = false)
    (hc : st.files.contains (a ++ ".cpp") = false) :
    add_class (add_class st ty nm).1 ty nm =
      ((add_class st ty nm).1, Except.error AddError.alreadyExists) := by
  have hfiles : (add_class st ty nm).1.files =
      (a ++ ".h") :: (a ++ ".cpp") :: st.files := by
    unfold add_class
    rw [ha]
    simp only [hh, hc, Bool.or_self, Bool.false_eq_true, if_false]
    cases hu : update_cmakelists st.cmake (a ++ ".cpp") <;> simp [hu]
  set st1 := (add_class st ty nm).1 with hst1
  unfold add_class
  rw [ha, hfiles]
  simp [List.contains_cons]

/-- C5 witness: a first call whose descriptor mutation fails (no marker
line in the descriptor) still makes the second call refuse with
`AlreadyExists` while leaving the state unchanged. -/
theorem add_class_refuses_duplicate_witness :
    (add_class stNoMarker "class" "Foo").2 = Except.error AddError.markerNotFound ∧
    add_class (add_class stNoMarker "class" "Foo").1 "class" "Foo" =
      ((add_class stNoMarker "class" "Foo").1, Except.error AddError.alreadyExists) := by
  refine ⟨rfl, ?_⟩
  exact add_class_refuses_duplicate stNoMarker "class" "Foo" "Foo" rfl rfl rfl

/-- Helper: before any `target_sources` line has been seen, the loop
copies lines unchanged and keeps the `found` flag false. -/
theorem updateLoop_append_no_ts (cpp : String) (pre rest : List String) (a : Bool)
    (h : ∀ l ∈ pre, isTargetSourcesLine l = false) :
    updateLoop cpp (pre ++ rest) false a =
      (pre ++ (updateLoop cpp rest false a).1, (updateLoop cpp rest false a).2) := by
  induction pre with
  | nil => simp
  | cons l tl ih =>
    have hl : isTargetSourcesLine l = false := h l (by simp)
    have htl := ih (fun q hq => h q (by simp [hq]))
    simp [updateLoop, hl, htl]

/-- Helper: with the `found` flag set and nothing inserted yet, lines
whose trimmed content does not begin with `PRIVATE` are copied
unchanged. -/
theorem updateLoop_append_no_priv (cpp : String) (mid rest : List String)
    (h : ∀ l ∈ mid, isPrivateLine l = false) :
    updateLoop cpp (mid ++ rest) true false =
      (mid ++ (updateLoop cpp rest true false).1, (updateLoop cpp rest true false).2) := by
  induction mid with
  | nil => simp
  | cons l tl ih =>
    have hl : isPrivateLine l = false := h l (by simp)
    have htl := ih (fun q hq => h q (by simp [hq]))
    simp [updateLoop, hl, htl]

/-- Helper: once the insertion has happened, the loop copies the rest of
the file unchanged. -/
theorem updateLoop_after_added (cpp : String) (post : List String) (f : Bool) :
    updateLoop cpp post f true = (post, true) := by
  induction post generalizing f with
  | nil => simp [updateLoop]
  | cons l tl ih => simp [updateLoop, ih]

/-- Helper: two lists starting with different characters cannot both be
prefixes of the same character list. -/
theorem isPrefixOf_false_of_ne_head {a b : Char} (hne : ¬a = b) (xs ys l : List Char)
    (ha : (a :: xs).isPrefixOf l = true) :
    (b :: ys).isPrefixOf l = false := by
  cases l with
  | nil => simp [List.isPrefixOf] at ha
  | cons c t =>
    have hac : a = c := by
      simp [List.isPrefixOf] at ha
      exact ha.1
    subst hac
    have hba : (b == a) = false := beq_eq_false_iff_ne.mpr (fun hh => hne hh.symm)
    simp [List.isPrefixOf, hba]

/-- Helper: a line opening the `target_sources` block cannot also be a
`PRIVATE` line (their trimmed contents start with different letters). -/
theorem isTargetSources_not_private {l : String} (h : isTargetSourcesLine l = true) :
    isPrivateLine l = false := by
  unfold isTargetSourcesLine startsWithStr at h
  unfold isPrivateLine startsWithStr
  have h1 : ("target_sources($\x7bPROJECT_NAME\x7d").toList =
      't' :: "arget_sources($\x7bPROJECT_NAME\x7d".toList := rfl
  have h2 : ("PRIVATE").toList = 'P' :: "RIVATE".toList := rfl
  rw [h1] at h
  rw [h2]
  exact isPrefixOf_false_of_ne_head (by decide) _ _ _ h

/-- C4: when a `target_sources` line is (first) followed by a line whose
trimmed content begins with `PRIVATE`, the descriptor mutation inserts
the new implementation file name exactly once, on a new line immediately
after that first `PRIVATE` line, indented four columns deeper than the
`PRIVATE` line's own indentation, and preserves every other line
byte-for-byte in its original order. -/
theorem update_cmakelists_inserts (cpp : String) (pre mid post : List String) (ts pv : String)
    (hpre : ∀ l ∈ pre, isTargetSourcesLine l = false)
    (hts : isTargetSourcesLine ts = true)
    (hmid : ∀ l ∈ mid, isPrivateLine l = false)
    (hpv : isPrivateLine pv = true) :
    update_cmakelists (pre ++ (ts :: (mid ++ (pv :: post)))) cpp =
      Except.ok (pre ++ (ts :: (mid ++ (pv ::
        (mkIndentLine (leadingWsCount pv + 4) cpp :: post))))) := by
  have hstep2 : updateLoop cpp (pv :: post) true false =
      (pv :: (mkIndentLine (leadingWsCount pv + 4) cpp :: post), true) := by
    simp [updateLoop, hpv, updateLoop_after_added]
  have hmidstep : updateLoop cpp (mid ++ (pv :: post)) true false =
      (mid ++ (pv :: (mkIndentLine (leadingWsCount pv + 4) cpp :: post)), true) := by
    rw [updateLoop_append_no_priv cpp mid (pv :: post) hmid, hstep2]
  have hstep1 : updateLoop cpp (ts :: (mid ++ (pv :: post))) false false =
      (ts :: (mid ++ (pv :: (mkIndentLine (leadingWsCount pv + 4) cpp :: post))), true) := by
    simp [updateLoop, hts, isTargetSources_not_private hts, hmidstep]
  have hloop : updateLoop cpp (pre ++ (ts :: (mid ++ (pv :: post)))) false false =
      (pre ++ (ts :: (mid ++ (pv ::
        (mkIndentLine (leadingWsCount pv + 4) cpp :: post)))), true) := by
    rw [updateLoop_append_no_ts cpp pre (ts :: (mid ++ (pv :: post))) false hpre, hstep1]
  simp [update_cmakelists, hloop]

/-- C4 witness: a minimal concrete descriptor. -/
theorem update_cmakelists_inserts_witness :
    update_cmakelists ["target_sources($\x7bPROJECT_NAME\x7d", "    PRIVATE", ")"]
        "Foo.cpp" =
      Except.ok ["target_sources($\x7bPROJECT_NAME\x7d", "    PRIVATE",
        "        Foo.cpp", ")"] := by
  have h := update_cmakelists_inserts "Foo.cpp" [] [] [")"]
    "target_sources($\x7bPROJECT_NAME\x7d" "    PRIVATE"
    (by simp) (by decide) (by simp) (by decide)
  have he : mkIndentLine (leadingWsCount "    PRIVATE" + 4) "Foo.cpp" =
      "        Foo.cpp" := by decide
  simpa [he] using h

end JuMake
